import Mathlib

/-!
Verification of the long-text chunking and audio-segment stitching core of the
kokoro-playground repository (files `tts.py` and `api.py`).

Texts are modelled as `List Char` (Python strings index by code point, as does
`List Char`; Python `len` equals `List.length`).  Audio sample values are
modelled as rationals `ℚ` (exact arithmetic in place of floating point; the
claims under study are about sample counts and elementwise blend structure,
not rounding).  Fallible Python/torch operations are modelled with
`Except String`.
-/

namespace KokoroPlayground

/-! Section: Python string primitives -/

/-- Characters stripped by Python `str.strip()` with no argument
(ASCII whitespace; the inputs of interest contain no exotic Unicode spaces). -/
def pyIsSpace (c : Char) : Bool :=
  c = ' ' || c = '\t' || c = '\n' || c = '\r' || c = '\x0b' || c = '\x0c'

/-- Python `s.strip()`: remove leading and trailing whitespace. -/
def strip (s : List Char) : List Char :=
  ((s.dropWhile pyIsSpace).reverse.dropWhile pyIsSpace).reverse

/-- Python `s.replace(old, rep)` for a single-character pattern `old`:
replace every occurrence of `old` by the string `rep`. -/
def replaceChar (old : Char) (rep : List Char) : List Char → List Char
  | [] => []
  | c :: cs =>
    if c = old then rep ++ replaceChar old rep cs
    else c :: replaceChar old rep cs

/-- Worker for `replaceEllipsis`, structurally recursive on a fuel argument
(one unit of fuel per character scanned; each step consumes at least one
character, so fuel equal to the length of the scanned string suffices). -/
def replaceEllipsisGo : Nat → List Char → List Char
  | _, [] => []
  | 0, s => s
  | fuel + 1, c :: cs =>
    if c = '.' ∧ cs.take 2 = ['.', '.'] then '…' :: replaceEllipsisGo fuel (cs.drop 2)
    else c :: replaceEllipsisGo fuel cs

/-- Python `s.replace('...', '…')`: replace each non-overlapping, leftmost-first
occurrence of three consecutive periods by one ellipsis glyph. -/
def replaceEllipsis (s : List Char) : List Char :=
  replaceEllipsisGo s.length s

/-- Python `s.split(sep)` for a single-character separator: split at every
occurrence of `sep`; an empty string yields `[[]]`, and empty pieces are kept. -/
def splitOnChar (sep : Char) : List Char → List (List Char)
  | [] => [[]]
  | c :: cs =>
    if c = sep then [] :: splitOnChar sep cs
    else
      match splitOnChar sep cs with
      | [] => [[c]]
      | piece :: pieces => (c :: piece) :: pieces

/-! Section: Sentence Segmenter (`tts.py`, `process_long_text`, lines 96–97)

```python
sentences = text.replace('...', '…').replace('。', '.')
                .replace('!', '! ').replace('?', '? ').split('.')
sentences = [s.strip() + '.' for s in sentences if s.strip()]
```
-/

/-- The sentence-splitting step of `process_long_text` (tts.py lines 96–97). -/
def splitSentences (text : List Char) : List (List Char) :=
  let sentences :=
    splitOnChar '.'
      (replaceChar '?' ['?', ' ']
        (replaceChar '!' ['!', ' ']
          (replaceChar '。' ['.'] (replaceEllipsis text))))
  sentences.filterMap fun s => if strip s = [] then none else some (strip s ++ ['.'])

/-- The Sentence Segmenter as the specification words it, step by step:
normalize the ellipsis, normalize the full-width period, insert a space after
every `!` and `?`, split on `.`, trim whitespace from each piece, drop the
empty pieces, and re-append a trailing `.` to every retained piece. -/
def segmenterSpec (text : List Char) : List (List Char) :=
  let pieces :=
    splitOnChar '.'
      (replaceChar '?' ['?', ' ']
        (replaceChar '!' ['!', ' ']
          (replaceChar '。' ['.'] (replaceEllipsis text))))
  ((pieces.map strip).filter fun p => !p.isEmpty).map fun p => p ++ ['.']

/-! Section: Chunk Packer (`tts.py`, `process_long_text`, lines 99–115)

```python
chunks = []
current_chunk = []
current_length = 0
for sentence in sentences:
    if current_length + len(sentence) > max_chars and current_chunk:
        chunks.append(' '.join(current_chunk))
        current_chunk = [sentence]
        current_length = len(sentence)
    else:
        current_chunk.append(sentence)
        current_length += len(sentence)
if current_chunk:
    chunks.append(' '.join(current_chunk))
```
-/

/-- Python `' '.join(chunk)`: interpose a single space between the sentences. -/
def joinSpace (chunk : List (List Char)) : List Char :=
  List.intercalate [' '] chunk

/-- The grouping loop of `process_long_text`, with the `' '.join` at each
emission point deferred, so that each produced chunk is still the list of the
sentences it groups.  Arguments: remaining sentences, `current_chunk`,
`current_length`. -/
def packGo (max_chars : Nat) :
    List (List Char) → List (List Char) → Nat → List (List (List Char))
  | [], current_chunk, _ =>
    if current_chunk = [] then [] else [current_chunk]
  | sentence :: rest, current_chunk, current_length =>
    if max_chars < current_length + sentence.length ∧ current_chunk ≠ [] then
      current_chunk :: packGo max_chars rest [sentence] sentence.length
    else
      packGo max_chars rest (current_chunk ++ [sentence]) (current_length + sentence.length)

/-- The Chunk Packer with chunks kept as sentence lists. -/
def packChunks (sentences : List (List Char)) (max_chars : Nat := 200) :
    List (List (List Char)) :=
  packGo max_chars sentences [] 0

/-- The grouping loop exactly as the source writes it: each emitted chunk is
the space-join of the accumulated sentences. -/
def packGoStr (max_chars : Nat) :
    List (List Char) → List (List Char) → Nat → List (List Char)
  | [], current_chunk, _ =>
    if current_chunk = [] then [] else [joinSpace current_chunk]
  | sentence :: rest, current_chunk, current_length =>
    if max_chars < current_length + sentence.length ∧ current_chunk ≠ [] then
      joinSpace current_chunk :: packGoStr max_chars rest [sentence] sentence.length
    else
      packGoStr max_chars rest (current_chunk ++ [sentence]) (current_length + sentence.length)

/-- The Chunk Packer's output as `process_long_text` stores it: a list of
space-joined chunk strings. -/
def packStrings (sentences : List (List Char)) (max_chars : Nat := 200) :
    List (List Char) :=
  packGoStr max_chars sentences [] 0

/-- The chunk texts `process_long_text` sends to the synthesizer for a given
input text: Sentence Segmenter followed by the Chunk Packer, `max_chars = 200`. -/
def processLongTextChunks (text : List Char) : List (List Char) :=
  packStrings (splitSentences text) 200

/-! Section: Audio Stitcher (`tts.py`, `crossfade`, lines 69–91)

```python
def crossfade(a, b, overlap_samples=2000):
    fade_out = torch.linspace(1, 0, overlap_samples)
    fade_in = torch.linspace(0, 1, overlap_samples)
    a_end = a[-overlap_samples:] * fade_out
    b_start = b[:overlap_samples] * fade_in
    result = torch.cat([a[:-overlap_samples], (a_end + b_start), b[overlap_samples:]])
    return result
```
-/

/-- Model of `torch.linspace(start, stop, steps)`: `steps` evenly spaced values from
`start` to `stop` inclusive; a single step yields `[start]`, zero steps yield
the empty tensor. -/
def linspace (start stop : ℚ) (steps : Nat) : List ℚ :=
  if steps = 1 then [start]
  else (List.range steps).map fun (i : Nat) => start + (stop - start) * (i : ℚ) / ((steps : ℚ) - 1)

/-- Python/torch slice `a[-k:]`: the last `min k (len a)` samples — except that
`a[-0:]` is `a[0:]`, the whole of `a`. -/
def sliceLast (a : List ℚ) (k : Nat) : List ℚ :=
  if k = 0 then a else a.drop (a.length - k)

/-- Python/torch slice `a[:-k]`: all but the last `k` samples — except that
`a[:-0]` is `a[:0]`, the empty tensor. -/
def sliceInit (a : List ℚ) (k : Nat) : List ℚ :=
  if k = 0 then [] else a.take (a.length - k)

/-- torch elementwise binary operation on one-dimensional tensors: sizes must
match, except that a size-one tensor broadcasts against the other operand;
any other size combination raises a `RuntimeError`. -/
def elemwise (f : ℚ → ℚ → ℚ) (x y : List ℚ) : Except String (List ℚ) :=
  if x.length = y.length then Except.ok (List.zipWith f x y)
  else if x.length = 1 then Except.ok (y.map fun v => f x.headI v)
  else if y.length = 1 then Except.ok (x.map fun v => f v y.headI)
  else Except.error ("size mismatch")

/-- The function `crossfade` (tts.py lines 69–91): blend the tail of `a` with the head of
`b` under linear fade curves and concatenate.  There is no guard on the
segment lengths; length mismatches surface only through `elemwise`. -/
def crossfade (a b : List ℚ) (overlap_samples : Nat := 2000) : Except String (List ℚ) :=
  let fade_out := linspace 1 0 overlap_samples
  let fade_in := linspace 0 1 overlap_samples
  match elemwise (fun x y => x * y) (sliceLast a overlap_samples) fade_out with
  | Except.error e => Except.error e
  | Except.ok a_end =>
    match elemwise (fun x y => x * y) (b.take overlap_samples) fade_in with
    | Except.error e => Except.error e
    | Except.ok b_start =>
      match elemwise (fun x y => x + y) a_end b_start with
      | Except.error e => Except.error e
      | Except.ok blended =>
        Except.ok (sliceInit a overlap_samples ++ blended ++ b.drop overlap_samples)

/-- The stitching loop of `process_long_text` (tts.py lines 130–135):
`final_audio = all_audio[0]; for next_audio in all_audio[1:]: final_audio =
crossfade(final_audio, next_audio)`, with the running result as first
argument. -/
def stitchList (k : Nat) : List ℚ → List (List ℚ) → Except String (List ℚ)
  | final_audio, [] => Except.ok final_audio
  | final_audio, next_audio :: rest =>
    match crossfade final_audio next_audio k with
    | Except.error e => Except.error e
    | Except.ok stitched => stitchList k stitched rest

/-- Left-to-right crossfade stitching of a whole segment list; an empty list
raises (`all_audio[0]` is an `IndexError`). -/
def stitchAll (segments : List (List ℚ)) (k : Nat := 2000) : Except String (List ℚ) :=
  match segments with
  | [] => Except.error ("IndexError: list index out of range")
  | first :: rest => stitchList k first rest

/-! Section: Buffered HTTP endpoint (`api.py`, `text_to_speech`, lines 51–118) -/

/-- The formats accepted by the `format` validation of `/tts`. -/
def supportedFormats : List String := ["mp3", "wav", "ogg", "aac", "opus"]

/-- The keys of the `pipelines` registry built at startup (api.py lines 14–19). -/
def pipelineLangCodes : List Char := ['a', 'b', 'f', 'h']

/-- Exceptions the body of `text_to_speech` can raise before or instead of
returning a response. -/
inductive PyError
  | httpException (status : Nat) (detail : String)
  | indexError
deriving DecidableEq

/-- The `try:` block of `text_to_speech` up to and including the pipeline
invocation, for a request with the given `voice` and `format` parameters:
either an exception or the status of the successful response, paired with
whether the synthesizer pipeline was invoked.  Synthesis itself is an external
collaborator; a successful run returns the 200 streaming response. -/
def ttsTryBlock (voice format : String) : Except PyError Nat × Bool :=
  if ¬ supportedFormats.contains format then
    (Except.error (PyError.httpException 400 ("Unsupported audio format")), false)
  else
    match voice.toList.head? with
    | none => (Except.error PyError.indexError, false)
    | some lang_code =>
      if ¬ pipelineLangCodes.contains lang_code then
        (Except.error (PyError.httpException 400 ("Unsupported language code")), false)
      else
        (Except.ok 200, true)

/-- The whole `text_to_speech` handler: its trailing
`except Exception as e: raise HTTPException(status_code=500, detail=str(e))`
catches every exception raised in the `try:` block — including the handler's
own `HTTPException(400)` validation errors, since `HTTPException` derives from
`Exception` — and surfaces it with status 500.  Result: final HTTP status and
whether the pipeline was invoked. -/
def text_to_speech (voice format : String) : Nat × Bool :=
  match ttsTryBlock voice format with
  | (Except.ok status, called) => (status, called)
  | (Except.error _, called) => (500, called)

/-- The concatenation loop of the buffered `/tts` path (api.py lines 70–76):
```python
audio = None
for _, _, audio_chunk in generator:
    if audio is None:
        audio = audio_chunk
    else:
        audio = np.concatenate([audio, audio_chunk])
```
`api.py` contains no `import numpy as np`, so evaluating `np.concatenate`
raises `NameError` the first time the `else` branch runs. -/
def ttsConcatLoop : Option (List ℚ) → List (List ℚ) → Except String (Option (List ℚ))
  | audio, [] => Except.ok audio
  | none, audio_chunk :: rest => ttsConcatLoop (some audio_chunk) rest
  | some _, _ :: _ => Except.error ("NameError: name np is not defined")

/-! Section: Streaming endpoint (`api.py`, `generate_audio_chunks`, lines 27–33)

```python
chunk_size = 200  # characters
chunks = [text[i:i + chunk_size] for i in range(0, len(text), chunk_size)]
```
-/

/-- The text chunks `generate_audio_chunks` synthesizes and emits for the
`/tts/stream` endpoint: consecutive fixed-size 200-character slices
(`range(0, len(text), 200)` has `⌈len/200⌉` indices). -/
def streamChunkTexts (text : List Char) : List (List Char) :=
  (List.range ((text.length + 199) / 200)).map fun i => (text.drop (200 * i)).take 200

/-! Section: CLI entry point (`tts.py`, `main`, lines 188–191)

```python
if len(text) > 500:
    audio, phonemes = process_long_text(model, text, voicepack, lang=args.voice[0])
else:
    audio, phonemes = generate(model, text, voicepack, lang=args.voice[0])
```
-/

/-- How the CLI synthesizes a text: either a single `generate` call on the
whole text, or `process_long_text` — segmentation, packing, one `generate`
call per chunk, crossfade stitching. -/
inductive CliSynthesis
  | singleCall (text : List Char)
  | longTextCall (chunks : List (List Char))
deriving DecidableEq

/-- The synthesis dispatch of `main` (tts.py lines 188–191). -/
def cliGenerate (text : List Char) : CliSynthesis :=
  if 500 < text.length then CliSynthesis.longTextCall (processLongTextChunks text)
  else CliSynthesis.singleCall text

/-! Section: Chunk Packer lemmas -/

lemma packGo_join (m : Nat) :
    ∀ (rest cur : List (List Char)) (len : Nat),
      (packGo m rest cur len).flatten = cur ++ rest := by
  intro rest
  induction rest with
  | nil =>
    intro cur len
    simp only [packGo]
    split
    · simp [*]
    · simp
  | cons s rest ih =>
    intro cur len
    simp only [packGo]
    split
    · simp [ih]
    · simp [ih]

lemma packGoStr_eq (m : Nat) :
    ∀ (rest cur : List (List Char)) (len : Nat),
      packGoStr m rest cur len = (packGo m rest cur len).map joinSpace := by
  intro rest
  induction rest with
  | nil =>
    intro cur len
    simp only [packGoStr, packGo]
    split_ifs <;> simp
  | cons s rest ih =>
    intro cur len
    simp only [packGoStr, packGo]
    split_ifs <;> simp [ih]

lemma packGo_bound (m : Nat) :
    ∀ (rest cur : List (List Char)) (len : Nat),
      len = (cur.map List.length).sum →
      ((cur.map List.length).sum ≤ m ∨ ∃ s, cur = [s] ∧ m < s.length) →
      ∀ chunk ∈ packGo m rest cur len,
        (chunk.map List.length).sum ≤ m ∨ ∃ s, chunk = [s] ∧ m < s.length := by
  intro rest
  induction rest with
  | nil =>
    intro cur len _ hcur chunk hchunk
    simp only [packGo] at hchunk
    split at hchunk
    · simp at hchunk
    · simp at hchunk
      subst hchunk
      exact hcur
  | cons s rest ih =>
    intro cur len hlen hcur chunk hchunk
    simp only [packGo] at hchunk
    split at hchunk
    case isTrue h =>
      rcases List.mem_cons.mp hchunk with rfl | hmem
      · exact hcur
      · refine ih [s] s.length (by simp) ?_ chunk hmem
        rcases le_or_lt s.length m with hsle | hslt
        · left; simpa using hsle
        · right; exact ⟨s, rfl, hslt⟩
    case isFalse h =>
      refine ih (cur ++ [s]) (len + s.length) (by simp [hlen]) ?_ chunk hchunk
      rcases eq_or_ne cur [] with rfl | hne
      · rcases le_or_lt s.length m with hsle | hslt
        · left; simpa using hsle
        · right; exact ⟨s, by simp, hslt⟩
      · have hle : len + s.length ≤ m := by
          by_contra hc
          push_neg at hc
          exact h ⟨hc, hne⟩
        left
        have hsum : ((cur ++ [s]).map List.length).sum = len + s.length := by
          simp [hlen]
        rw [hsum]
        exact hle

/-! Section: Sentence Segmenter lemmas -/

lemma replaceChar_not_mem (old : Char) (rep : List Char) :
    ∀ s : List Char, old ∉ s → replaceChar old rep s = s := by
  intro s
  induction s with
  | nil => intro _; rfl
  | cons c cs ih =>
    intro h
    have hc : c ≠ old := by rintro rfl; exact h (List.mem_cons_self _ _)
    have hcs : old ∉ cs := fun hm => h (List.mem_cons_of_mem _ hm)
    simp [replaceChar, hc, ih hcs]

lemma replaceEllipsisGo_not_mem :
    ∀ (fuel : Nat) (s : List Char), '.' ∉ s → replaceEllipsisGo fuel s = s := by
  intro fuel
  induction fuel with
  | zero => intro s _; cases s <;> rfl
  | succ fuel ih =>
    intro s h
    cases s with
    | nil => rfl
    | cons c cs =>
      have hc : c ≠ '.' := by rintro rfl; exact h (List.mem_cons_self _ _)
      have hcs : '.' ∉ cs := fun hm => h (List.mem_cons_of_mem _ hm)
      simp [replaceEllipsisGo, hc, ih cs hcs]

lemma replaceEllipsis_not_mem (s : List Char) (h : '.' ∉ s) : replaceEllipsis s = s :=
  replaceEllipsisGo_not_mem s.length s h

lemma splitOnChar_not_mem (sep : Char) :
    ∀ s : List Char, sep ∉ s → splitOnChar sep s = [s] := by
  intro s
  induction s with
  | nil => intro _; rfl
  | cons c cs ih =>
    intro h
    have hc : c ≠ sep := by rintro rfl; exact h (List.mem_cons_self _ _)
    have hcs : sep ∉ cs := fun hm => h (List.mem_cons_of_mem _ hm)
    simp [splitOnChar, hc, ih hcs]

lemma filterMap_strip_eq (l : List (List Char)) :
    (l.filterMap fun s => if strip s = [] then none else some (strip s ++ ['.'])) =
      ((l.map strip).filter fun p => !p.isEmpty).map fun p => p ++ ['.'] := by
  induction l with
  | nil => rfl
  | cons s rest ih =>
    by_cases h : strip s = [] <;>
      simp [List.filterMap_cons, List.filter_cons, h, ih]

/-! Section: Claim C1 -/

/-- Claim C1 (packing completeness): for every sentence sequence and every
positive maximum chunk length, the grouping loop of `process_long_text`
partitions the sentences — flattening the produced chunks returns every input
sentence exactly once and in the original order (no omission, no
duplication), and the chunk strings the code stores are exactly the
space-joins of those chunk sentence lists. -/
theorem packing_completeness (sentences : List (List Char)) (max_chars : Nat)
    (_hpos : 0 < max_chars) :
    (packChunks sentences max_chars).flatten = sentences ∧
    packStrings sentences max_chars = (packChunks sentences max_chars).map joinSpace := by
  constructor
  · simpa [packChunks] using packGo_join max_chars sentences [] 0
  · simpa [packStrings, packChunks] using packGoStr_eq max_chars sentences [] 0

/-- Witness for C1 at a concrete input. -/
theorem packing_completeness_witness :
    (packChunks [['H', 'i', '.'], ['B', 'y', 'e', '.']] 5).flatten =
      [['H', 'i', '.'], ['B', 'y', 'e', '.']] ∧
    packStrings [['H', 'i', '.'], ['B', 'y', 'e', '.']] 5 =
      (packChunks [['H', 'i', '.'], ['B', 'y', 'e', '.']] 5).map joinSpace :=
  packing_completeness _ _ (by decide)

/-! Section: Claim C4 -/

/-- Claim C4 (amended): every chunk produced by the grouping loop has total
sentence character count at most the maximum — counting only the sentences'
own characters, not the single spaces inserted by `' '.join`, because the
loop's `current_length` sums bare sentence lengths — unless the chunk
consists of a single sentence whose own length exceeds the maximum. -/
theorem packing_bound_sum (sentences : List (List Char)) (max_chars : Nat)
    (_hpos : 0 < max_chars) :
    ∀ chunk ∈ packChunks sentences max_chars,
      (chunk.map List.length).sum ≤ max_chars ∨
      ∃ s, chunk = [s] ∧ max_chars < s.length := by
  intro chunk hchunk
  exact packGo_bound max_chars sentences [] 0 (by simp) (Or.inl (by simp)) chunk hchunk

/-- Counterexample to C4 as stated: with maximum 5, the sentences "ab" and
"cde" are packed into one two-sentence chunk whose space-joined string
"ab cde" has length 6 > 5, and the single-oversized-sentence exception does
not apply — the stated bound on the space-joined string is violated. -/
theorem packing_bound_cex :
    packStrings [['a', 'b'], ['c', 'd', 'e']] 5 = [['a', 'b', ' ', 'c', 'd', 'e']] ∧
    ¬ (['a', 'b', ' ', 'c', 'd', 'e'] : List Char).length ≤ 5 ∧
    packChunks [['a', 'b'], ['c', 'd', 'e']] 5 = [[['a', 'b'], ['c', 'd', 'e']]] := by
  decide

/-- Witness for the amended C4 at a concrete input. -/
theorem packing_bound_witness :
    ((([['a', 'b']] : List (List Char)).map List.length).sum ≤ 1 ∨
      ∃ s, ([['a', 'b']] : List (List Char)) = [s] ∧ 1 < s.length) :=
  packing_bound_sum [['a', 'b']] 1 (by decide) [['a', 'b']] (by decide)

/-! Section: Claim C9 -/

/-- Claim C9 (amended): the Sentence Segmenter computes exactly the algorithm
the specification describes (normalize the ellipsis and the full-width
period, insert a space after `!` and `?`, split on `.`, trim, drop empty
pieces, re-append `.`); and an input that contains none of `.`, `。`, `!`,
`?` and is nonempty after trimming yields exactly one sentence, the trimmed
input plus an appended `.`. -/
theorem segmenter_algorithm :
    (∀ text : List Char, splitSentences text = segmenterSpec text) ∧
    (∀ text : List Char, '.' ∉ text → '。' ∉ text → '!' ∉ text → '?' ∉ text →
      strip text ≠ [] → splitSentences text = [strip text ++ ['.']]) := by
  constructor
  · intro text
    simp only [splitSentences, segmenterSpec]
    exact filterMap_strip_eq _
  · intro text hdot hcjk hbang hq hne
    have h1 : replaceEllipsis text = text := replaceEllipsis_not_mem text hdot
    have h2 : replaceChar '。' ['.'] text = text := replaceChar_not_mem _ _ text hcjk
    have h3 : replaceChar '!' ['!', ' '] text = text := replaceChar_not_mem _ _ text hbang
    have h4 : replaceChar '?' ['?', ' '] text = text := replaceChar_not_mem _ _ text hq
    simp only [splitSentences, h1, h2, h3, h4, splitOnChar_not_mem '.' text hdot]
    simp [List.filterMap_cons, hne]

/-- Counterexample to C9 as stated: a whitespace-only input has no terminal
punctuation, yet the segmenter yields no sentence at all rather than the
trimmed input plus an appended period. -/
theorem segmenter_whitespace_cex :
    splitSentences [' '] = [] ∧ strip [' '] ++ ['.'] = ['.'] ∧
    splitSentences [' '] ≠ [strip [' '] ++ ['.']] := by decide

/-- Witness for the amended C9 at a concrete input. -/
theorem segmenter_algorithm_witness :
    splitSentences ['h', 'i'] = [strip ['h', 'i'] ++ ['.']] :=
  segmenter_algorithm.2 ['h', 'i'] (by decide) (by decide) (by decide) (by decide)
    (by decide)

/-! Section: Audio Stitcher lemmas -/

lemma linspace_length (start stop : ℚ) (steps : Nat) :
    (linspace start stop steps).length = steps := by
  unfold linspace
  split
  · simp [*]
  · rw [List.length_map, List.length_range]

lemma crossfade_of_le (a b : List ℚ) (k : Nat) (hk : 1 ≤ k)
    (ha : k ≤ a.length) (hb : k ≤ b.length) :
    crossfade a b k = Except.ok (a.take (a.length - k) ++
      List.zipWith (fun x y => x + y)
        (List.zipWith (fun x y => x * y) (a.drop (a.length - k)) (linspace 1 0 k))
        (List.zipWith (fun x y => x * y) (b.take k) (linspace 0 1 k)) ++ b.drop k) := by
  have hk0 : k ≠ 0 := by omega
  have hdrop : (a.drop (a.length - k)).length = k := by
    rw [List.length_drop]; omega
  have htake : (b.take k).length = k := by
    rw [List.length_take]; omega
  have e1 : sliceLast a k = a.drop (a.length - k) := by simp [sliceLast, hk0]
  have e2 : sliceInit a k = a.take (a.length - k) := by simp [sliceInit, hk0]
  have e3 : elemwise (fun x y => x * y) (a.drop (a.length - k)) (linspace 1 0 k) =
      Except.ok (List.zipWith (fun x y => x * y) (a.drop (a.length - k)) (linspace 1 0 k)) := by
    simp [elemwise, hdrop, linspace_length]
  have e4 : elemwise (fun x y => x * y) (b.take k) (linspace 0 1 k) =
      Except.ok (List.zipWith (fun x y => x * y) (b.take k) (linspace 0 1 k)) := by
    simp [elemwise, htake, linspace_length]
  have e5 : elemwise (fun x y => x + y)
      (List.zipWith (fun x y => x * y) (a.drop (a.length - k)) (linspace 1 0 k))
      (List.zipWith (fun x y => x * y) (b.take k) (linspace 0 1 k)) =
      Except.ok (List.zipWith (fun x y => x + y)
        (List.zipWith (fun x y => x * y) (a.drop (a.length - k)) (linspace 1 0 k))
        (List.zipWith (fun x y => x * y) (b.take k) (linspace 0 1 k))) := by
    simp [elemwise, List.length_zipWith, hdrop, htake, linspace_length]
  simp only [crossfade, e1, e2, e3, e4, e5]

lemma crossfade_result_length (a b : List ℚ) (k : Nat) (hk : 1 ≤ k)
    (ha : k ≤ a.length) (hb : k ≤ b.length) :
    ∃ w, crossfade a b k = Except.ok w ∧ w.length = a.length + b.length - k := by
  refine ⟨_, crossfade_of_le a b k hk ha hb, ?_⟩
  simp only [List.length_append, List.length_zipWith, List.length_take, List.length_drop,
    linspace_length]
  omega

lemma sum_lengths_ge (k : Nat) :
    ∀ l : List (List ℚ), (∀ s ∈ l, k ≤ s.length) →
      l.length * k ≤ (l.map List.length).sum := by
  intro l
  induction l with
  | nil => simp
  | cons b bs ih =>
    intro h
    have hb := h b (List.mem_cons_self _ _)
    have hrest := ih fun s hs => h s (List.mem_cons_of_mem _ hs)
    simp only [List.map_cons, List.sum_cons, List.length_cons]
    rw [Nat.succ_mul]
    omega

lemma stitchList_ok (k : Nat) (hk : 1 ≤ k) :
    ∀ (rest : List (List ℚ)) (acc : List ℚ), k ≤ acc.length →
      (∀ s ∈ rest, k ≤ s.length) →
      ∃ w, stitchList k acc rest = Except.ok w ∧
        w.length = acc.length + (rest.map List.length).sum - rest.length * k := by
  intro rest
  induction rest with
  | nil =>
    intro acc _ _
    exact ⟨acc, rfl, by simp⟩
  | cons b bs ih =>
    intro acc ha hall
    have hb : k ≤ b.length := hall b (List.mem_cons_self _ _)
    obtain ⟨w1, hw1, hw1len⟩ := crossfade_result_length acc b k hk ha hb
    have hw1k : k ≤ w1.length := by omega
    obtain ⟨w, hw, hwlen⟩ := ih w1 hw1k fun s hs => hall s (List.mem_cons_of_mem _ hs)
    refine ⟨w, ?_, ?_⟩
    · simp only [stitchList, hw1]
      exact hw
    · have hsum := sum_lengths_ge k bs fun s hs => hall s (List.mem_cons_of_mem _ hs)
      simp only [List.map_cons, List.sum_cons, List.length_cons]
      rw [Nat.succ_mul]
      omega

/-! Section: Claim C2 -/

/-- Claim C2 (amended): for every positive overlap `k` and every nonempty
sequence of segments each holding at least `k` samples, left-to-right
crossfade stitching succeeds and the result has exactly
`sum(ci) - (N-1)*k` samples. -/
theorem crossfade_stitch_length (segments : List (List ℚ)) (k : Nat)
    (hk : 1 ≤ k) (hne : segments ≠ [])
    (hall : ∀ s ∈ segments, k ≤ s.length) :
    ∃ w, stitchAll segments k = Except.ok w ∧
      w.length = (segments.map List.length).sum - (segments.length - 1) * k := by
  match segments, hne with
  | first :: rest, _ =>
    have hfirst : k ≤ first.length := hall first (List.mem_cons_self _ _)
    obtain ⟨w, hw, hwlen⟩ := stitchList_ok k hk rest first hfirst
      (fun s hs => hall s (List.mem_cons_of_mem _ hs))
    refine ⟨w, hw, ?_⟩
    simp only [List.map_cons, List.sum_cons, List.length_cons, Nat.add_sub_cancel]
    omega

/-- Counterexample to C2 as stated, at overlap `k = 0` (each segment
trivially holds at least `0` samples): two one-sample segments stitch to a
single sample, not to `1 + 1 - (2-1)*0 = 2` samples — with `k = 0` the
Python slices `a[:-0]` and `a[-0:]` degenerate and the law fails. -/
theorem crossfade_stitch_zero_overlap_cex :
    stitchAll [[(1 : ℚ)], [2]] 0 = Except.ok [2] ∧
    List.length [(2 : ℚ)] ≠
      (([[(1 : ℚ)], [2]] : List (List ℚ)).map List.length).sum -
        (([[(1 : ℚ)], [2]] : List (List ℚ)).length - 1) * 0 := by
  refine ⟨rfl, by decide⟩

/-- Witness for the amended C2 at a concrete input. -/
theorem crossfade_stitch_length_witness :
    ∃ w, stitchAll [[(0 : ℚ), 0], [0, 0]] 1 = Except.ok w ∧
      w.length = (([[(0 : ℚ), 0], [0, 0]] : List (List ℚ)).map List.length).sum -
        (([[(0 : ℚ), 0], [0, 0]] : List (List ℚ)).length - 1) * 1 :=
  crossfade_stitch_length _ _ (by decide) (by decide) (by decide)

/-! Section: Claim C3 -/

/-- Claim C3 (amended): for every positive overlap `k` and segments `a`, `b`
each holding at least `k` samples, the two-segment crossfade result is `a`'s
first `len a - k` samples unchanged, then the elementwise sum of `a`'s last
`k` samples weighted by the linear ramp from 1 to 0 and `b`'s first `k`
samples weighted by the linear ramp from 0 to 1, then `b`'s last `len b - k`
samples unchanged. -/
theorem crossfade_content (a b : List ℚ) (k : Nat) (hk : 1 ≤ k)
    (ha : k ≤ a.length) (hb : k ≤ b.length) :
    crossfade a b k = Except.ok (a.take (a.length - k) ++
      List.zipWith (fun x y => x + y)
        (List.zipWith (fun x y => x * y) (a.drop (a.length - k)) (linspace 1 0 k))
        (List.zipWith (fun x y => x * y) (b.take k) (linspace 0 1 k)) ++ b.drop k) :=
  crossfade_of_le a b k hk ha hb

/-- Counterexample to C3 as stated, at overlap `k = 0`: for the one-sample
segments `[1]` and `[2]` (each trivially of length at least `0`) the code
returns `[2]`, while the claimed decomposition predicts `[1, 2]` — the
degenerate slice `a[:-0] = []` discards `a` entirely. -/
theorem crossfade_content_zero_overlap_cex :
    crossfade [(1 : ℚ)] [2] 0 = Except.ok [2] ∧
    [(2 : ℚ)] ≠ [(1 : ℚ)].take (List.length [(1 : ℚ)] - 0) ++
      List.zipWith (fun x y => x + y)
        (List.zipWith (fun x y => x * y) ([(1 : ℚ)].drop (List.length [(1 : ℚ)] - 0))
          (linspace 1 0 0))
        (List.zipWith (fun x y => x * y) ([(2 : ℚ)].take 0) (linspace 0 1 0)) ++
      [(2 : ℚ)].drop 0 := by
  refine ⟨rfl, ?_⟩
  norm_num [linspace]

/-- Witness for the amended C3 at a concrete input. -/
theorem crossfade_content_witness :
    crossfade [(2 : ℚ), 3] [4, 5] 1 = Except.ok ([(2 : ℚ), 3].take (List.length [(2 : ℚ), 3] - 1) ++
      List.zipWith (fun x y => x + y)
        (List.zipWith (fun x y => x * y) ([(2 : ℚ), 3].drop (List.length [(2 : ℚ), 3] - 1))
          (linspace 1 0 1))
        (List.zipWith (fun x y => x * y) ([(4 : ℚ), 5].take 1) (linspace 0 1 1)) ++
      [(4 : ℚ), 5].drop 1) :=
  crossfade_content [2, 3] [4, 5] 1 (by decide) (by decide) (by decide)

/-! Section: Claim C5 -/

/-- Claim C5 (code-bug evidence): `crossfade` contains no precondition guard.
A one-sample first segment — shorter than the overlap 2 — is silently
accepted: torch broadcasts the single sample against the fade-out curve and a
waveform is returned, with no error signalled.  A two-sample segment under
overlap 3 does fail, but only through the accidental elementwise size
mismatch, not through any explicit guard. -/
theorem crossfade_missing_guard :
    List.length [(1 : ℚ)] < 2 ∧
    crossfade [(1 : ℚ)] [5, 7] 2 = Except.ok [1, 7] ∧
    crossfade [(1 : ℚ), 2] [0, 0, 0] 3 = Except.error ("size mismatch") := by
  have hfo : linspace 1 0 2 = [1, 0] := by
    norm_num [linspace, List.range_succ]
  have hfi : linspace 0 1 2 = [0, 1] := by
    norm_num [linspace, List.range_succ]
  refine ⟨by decide, ?_, ?_⟩
  · norm_num [crossfade, sliceLast, sliceInit, elemwise, hfo, hfi]
  · have h1 : (linspace 1 0 3).length = 3 := linspace_length 1 0 3
    simp [crossfade, sliceLast, elemwise, h1]

/-! Section: Claim C6 -/

/-- Claim C6 (code-bug evidence): on the buffered `/tts` endpoint an
unsupported `format` or an unregistered voice language code does raise
`HTTPException(400)` before any pipeline call, but the handler's blanket
`except Exception` catches that very exception and re-raises it with status
500 — so the client receives 500, not the 400 the claim states.  No pipeline
call is made, as claimed; a valid request reaches the pipeline and returns
200. -/
theorem tts_validation_returns_500 :
    text_to_speech ("af_heart") ("xyz") = (500, false) ∧
    text_to_speech ("zz_test") ("mp3") = (500, false) ∧
    text_to_speech ("af_heart") ("mp3") = (200, true) := by decide

/-! Section: Claim C7 -/

/-- Claim C7 (code-bug evidence): the buffered `/tts` concatenation loop
works only when the synthesizer generator yields exactly one segment; with
two or more segments the `else` branch evaluates `np.concatenate`, and since
`api.py` never imports numpy this raises `NameError` instead of producing the
`sum(ci)`-sample concatenation the claim states. -/
theorem tts_concat_missing_numpy :
    ttsConcatLoop none [[(1 : ℚ)], [2]] =
      Except.error ("NameError: name np is not defined") ∧
    ttsConcatLoop none [[(1 : ℚ), 2]] = Except.ok (some [1, 2]) :=
  ⟨rfl, rfl⟩

/-! Section: Claim C8 lemmas -/

lemma streamChunkTexts_flatten :
    ∀ (n : Nat) (text : List Char), (text.length + 199) / 200 = n →
      (streamChunkTexts text).flatten = text := by
  intro n
  induction n with
  | zero =>
    intro text h
    have h0 : text.length = 0 := by omega
    have hnil : text = [] := List.length_eq_zero.mp h0
    subst hnil
    rfl
  | succ n ih =>
    intro text h
    have hdroplen : ((text.drop 200).length + 199) / 200 = n := by
      rw [List.length_drop]; omega
    have htail := ih (text.drop 200) hdroplen
    unfold streamChunkTexts at htail ⊢
    rw [hdroplen] at htail
    rw [h, List.range_succ_eq_map, List.map_cons, List.flatten_cons, List.map_map]
    have hfun : ((fun (i : Nat) => (text.drop (200 * i)).take 200) ∘ Nat.succ) =
        fun (i : Nat) => ((text.drop 200).drop (200 * i)).take 200 := by
      funext i
      simp only [Function.comp_apply]
      have hmul : 200 * Nat.succ i = 200 + 200 * i := by omega
      rw [List.drop_drop, hmul]
    rw [hfun, htail]
    simp [List.take_append_drop]

lemma streamChunkTexts_le (text : List Char) :
    ∀ c ∈ streamChunkTexts text, c.length ≤ 200 := by
  intro c hc
  simp only [streamChunkTexts, List.mem_map] at hc
  obtain ⟨i, _, rfl⟩ := hc
  simp only [List.length_take]
  omega

/-! Section: Claim C8 -/

/-- Claim C8 (amended): the streaming endpoint does not reuse the core
Segmenter-plus-Packer chunking; `generate_audio_chunks` slices the raw text
into consecutive chunks of at most 200 characters whose concatenation is
exactly the input text — no sentence segmentation and none of the core's
normalization is applied. -/
theorem streaming_fixed_slicing (text : List Char) :
    (streamChunkTexts text).flatten = text ∧
    ∀ c ∈ streamChunkTexts text, c.length ≤ 200 :=
  ⟨streamChunkTexts_flatten ((text.length + 199) / 200) text rfl,
    streamChunkTexts_le text⟩

/-- Counterexample to C8 as stated: for the input "Hi" the streaming endpoint
synthesizes the single raw chunk "Hi", while the core chunking
(`process_long_text`) produces "Hi." — the two chunkings differ. -/
theorem streaming_not_core_chunking_cex :
    streamChunkTexts ['H', 'i'] = [['H', 'i']] ∧
    processLongTextChunks ['H', 'i'] = [['H', 'i', '.']] ∧
    streamChunkTexts ['H', 'i'] ≠ processLongTextChunks ['H', 'i'] := by decide

/-- Witness for the amended C8 at a concrete input. -/
theorem streaming_fixed_slicing_witness :
    (streamChunkTexts ['a']).flatten = ['a'] ∧ List.length ['a'] ≤ 200 :=
  ⟨(streaming_fixed_slicing ['a']).1,
    (streaming_fixed_slicing ['a']).2 ['a'] (by decide)⟩

/-! Section: Claim C10 -/

/-- Claim C10: the CLI path synthesizes a text of at most 500 characters with
exactly one `generate` call on the whole text — no segmentation, packing or
crossfade stitching — and runs `process_long_text` (the chunking-and-
stitching core) exactly when the text exceeds 500 characters. -/
theorem cli_threshold (text : List Char) :
    (text.length ≤ 500 → cliGenerate text = CliSynthesis.singleCall text) ∧
    (500 < text.length →
      cliGenerate text = CliSynthesis.longTextCall (processLongTextChunks text)) := by
  constructor
  · intro h
    unfold cliGenerate
    rw [if_neg (by omega)]
  · intro h
    unfold cliGenerate
    rw [if_pos h]

/-- Witness for C10 at a concrete input. -/
theorem cli_threshold_witness :
    cliGenerate ['h', 'i'] = CliSynthesis.singleCall ['h', 'i'] :=
  (cli_threshold ['h', 'i']).1 (by decide)

end KokoroPlayground
